import Mathlib

/-!
The facter command-line driver (`exe/facter.cc`).

A shallow embedding of `main` of `exe/facter.cc` and of its helpers
`log_command_line` and `log_queries`, together with the properties of the
query canonicalisation, the option validation, the logging level, the Ruby
life cycle and the dispatch order.

Conventions of the embedding:

* a `std::string` is a `String`; the character algorithms work on its list of
  characters (`String.data`), which they only compare with `'.'` and classify
  with the locale;
* every call to a collaborator (logging facility, Ruby subsystem, collection
  engine, output streams) is recorded, in order, in a list of `Call`s;
* what the collaborators answer (return values, raised exceptions, message
  translation, character classification) is read from an `Env`.
-/

namespace Facter

/-! ## Query canonicalisation (lines 241-246) -/

/-- The part of `boost::trim_copy_if` that finds the end of the result:
the longest suffix of characters satisfying `p` is cut off. -/
def trim_end (p : Char → Bool) (s : List Char) : List Char :=
  (s.reverse.dropWhile p).reverse

/-- The part of `boost::trim_copy_if` that finds the beginning of the result:
the longest prefix of characters satisfying `p` is skipped. -/
def trim_begin (p : Char → Bool) (s : List Char) : List Char :=
  s.dropWhile p

/-- The function `boost::trim_copy_if(Input, IsSpace)`: the end is trimmed first, then the
beginning of what is left. -/
def trim_copy_if (s : List Char) (p : Char → Bool) : List Char :=
  trim_begin p (trim_end p s)

/-- The loop of `std::unique(first, last, pred)` once the first element has been
kept: `kept` is the element `*result` last written, the argument is the rest
of the range; an element is written unless `pred kept elem` holds. -/
def unique_loop (pred : Char → Char → Bool) (kept : Char) : List Char → List Char
  | [] => []
  | c :: rest =>
    if pred kept c then unique_loop pred kept rest
    else c :: unique_loop pred c rest

/-- The statement `s.erase(std::unique(s.begin(), s.end(), pred), s.end())`:
the elements kept by `std::unique`. -/
def unique (pred : Char → Char → Bool) : List Char → List Char
  | [] => []
  | c :: rest => c :: unique_loop pred c rest

/-- The predicate `boost::is_any_of(".") || boost::is_space()` of line 241;
`is_space` is the classification of the locale. -/
def is_delimiter_or_space (is_space : Char → Bool) (c : Char) : Bool :=
  c == '.' || is_space c

/-- The lambda of lines 244-246: `a == b && a == '.'`. -/
def duplicate_delimiter (a b : Char) : Bool :=
  a == b && a == '.'

/-- Lines 241-246: the query computed from the positional token `q`. -/
def canonicalize (is_space : Char → Bool) (q : String) : String :=
  let query := trim_copy_if q.data (is_delimiter_or_space is_space)
  ⟨unique duplicate_delimiter query⟩

/-- The function `std::isspace` in the classic "C" locale: space, `\t`, `\n`, `\v`, `\f`, `\r`. -/
def classic_is_space (c : Char) : Bool :=
  c == ' ' || (9 ≤ c.toNat && c.toNat ≤ 13)

/-- The method `std::set<std::string>::emplace`: ordered insertion (strings compare
lexicographically, character by character), nothing is inserted when an
equivalent key is already there. -/
def set_emplace (q : String) : List String → List String
  | [] => [q]
  | x :: xs =>
    if q.data < x.data then q :: x :: xs
    else if x.data < q.data then x :: set_emplace q xs
    else x :: xs

/-- The body of the loop of lines 239-254 for one token `q`, on the set built
so far. -/
def add_query (is_space : Char → Bool) (queries : List String) (q : String) : List String :=
  let query := canonicalize is_space q
  if query.isEmpty then queries
  else set_emplace query queries

/-! ## Collaborators and the option map -/

/-- The enumeration `facter::logging::level`. -/
inductive level
  | none | trace | debug | info | warning | error | fatal
  deriving DecidableEq

/-- The enumeration `facter::facts::format`. -/
inductive format
  | hash | json | yaml
  deriving DecidableEq

/-- An exception that escapes a collaborator: `locale_error` has a handler of
its own (line 284), every other `std::exception` is handled at line 287. -/
inductive Exn
  | locale_error (what : String)
  | exception (what : String)
  deriving DecidableEq

/-- The calls `main` makes to its collaborators, as they are recorded. -/
inductive Call
  /-- Lines 111-112: `cout.imbue(get_locale())` and `setup_logging(cerr)`. -/
  | setup_logging
  /-- The function `help(visible_options)`: the usage text on `cout`. -/
  | help
  /-- The call `colorize(cerr, lvl)` and, with no level, `colorize(cerr)`. -/
  | colorize (lvl : Option level)
  /-- Text written to `boost::nowide::cerr`. -/
  | cerr (text : String)
  /-- Line 206: `cout << LIBFACTER_VERSION_WITH_COMMIT << endl`. -/
  | cout_version
  | set_colorization (color : Bool)
  | set_level (lvl : level)
  /-- The function `log(lvl, format, argument)` of the logging facility. -/
  | log (lvl : level) (fmt : String) (arg : Option String)
  /-- The call `facter::ruby::initialize(trace)`. -/
  | initialize_ruby (trace : Bool)
  /-- The call `facter::ruby::uninitialize()`. -/
  | uninitialize_ruby
  | add_default_facts (ruby : Bool)
  | add_external_facts (dirs : List String)
  | add_environment_facts
  /-- The call `facter::ruby::load_custom_facts(facts, puppet, custom_directories)`. -/
  | load_custom_facts (puppet : Bool) (dirs : List String)
  /-- The call `facts.write(cout, fmt, queries, show_legacy)`. -/
  | write (fmt : format) (queries : List String) (show_legacy : Bool)
  /-- Line 283: `cout << endl`. -/
  | cout_endl
  deriving DecidableEq

/-- What the collaborators answer during one run. -/
structure Env where
  /-- The function `leatherman::locale::translate`, the macro `_` of line 26. -/
  tr : String → String
  /-- The classification used by `boost::is_space()`. -/
  is_space : Char → Bool
  /-- The answer of `is_enabled(asked)` while `current` is the level given to `set_level`. -/
  is_enabled : (current : level) → (asked : level) → Bool
  /-- The value `facter::ruby::initialize(trace)` returns when it returns. -/
  ruby_available : (trace : Bool) → Bool
  /-- The exception a call to the Ruby subsystem or to the collection engine
  raises, if it raises one. -/
  raises : Call → Option Exn
  /-- The answer of `error_logged()` after the given calls. -/
  error_logged : List Call → Bool

/-- The `po::variables_map` filled by `po::store` (and `po::notify`). The typed
reads follow the option schema of lines 121-147: `log-level` holds a `level`
with the default `level::warning`, `query`, `custom-dir` and `external-dir`
hold vectors of strings. -/
structure variables_map where
  /-- The names under which the map holds a value. -/
  names : List String
  /-- The level given on the command line with `log-level`, if one was given. -/
  log_level : Option level
  /-- The value `vm[_("query")].as<vector<string>>()`. -/
  query : List String
  /-- The values of `custom-dir`, which `po::notify` stores in `custom_directories`. -/
  custom_directories : List String
  /-- The values of `external-dir`, which `po::notify` stores in `external_directories`. -/
  external_directories : List String

/-- The value of `vm.count(name)`: 1 when the map holds `name`, otherwise 0. -/
def variables_map.count (vm : variables_map) (name : String) : Nat :=
  if name ∈ vm.names then 1 else 0

/-- The value `vm[_("log-level")].as<level>()`: the level given, or the default of line 130. -/
def variables_map.log_level_value (vm : variables_map) : level :=
  match vm.log_level with
  | some lvl => lvl
  | Option.none => level.warning

/-- The value `vm[_("log-level")].defaulted()`. -/
def variables_map.log_level_defaulted (vm : variables_map) : Bool :=
  vm.log_level.isNone

/-- How the run begins (lines 108-160), all of it inside the collaborators:
setting up the locale and the logging raises, or `po::store` raises on the
command line, or `po::store` fills the map. -/
inductive startup
  | setup_failed (e : Exn)
  | store_failed (what : String)
  | stored (vm : variables_map)

abbrev EXIT_SUCCESS : Nat := 0
abbrev EXIT_FAILURE : Nat := 1

/-! ## Runs: recorded calls and a result or an escaping exception -/

/-- A piece of `main` that was run: the calls it made, and its result unless
an exception escaped. -/
structure Run (α : Type) where
  trace : List Call
  result : Except Exn α

/-- Sequencing: the second piece runs only when the first returned. -/
def Run.bind {α β : Type} (m : Run α) (f : α → Run β) : Run β :=
  match m.result with
  | Except.ok a => ⟨m.trace ++ (f a).trace, (f a).result⟩
  | Except.error e => ⟨m.trace, Except.error e⟩

instance : Monad Run where
  pure a := ⟨[], Except.ok a⟩
  bind := Run.bind

/-- A call that returns. -/
def emit (c : Call) : Run Unit :=
  ⟨[c], Except.ok ()⟩

/-- A call to the Ruby subsystem or the collection engine, which may raise. -/
def call (env : Env) (c : Call) : Run Unit :=
  ⟨[c], match env.raises c with
        | Option.none => Except.ok ()
        | some e => Except.error e⟩

/-- The call `facter::ruby::initialize(trace)`. -/
def initialize_ruby (env : Env) (trace : Bool) : Run Bool :=
  ⟨[Call.initialize_ruby trace],
    match env.raises (Call.initialize_ruby trace) with
    | Option.none => Except.ok (env.ruby_available trace)
    | some e => Except.error e⟩

/-- The lambda given to `ruby_cleanup` (lines 230-234). -/
def ruby_cleanup (ruby : Bool) : List Call :=
  if ruby then [Call.uninitialize_ruby] else []

/-- A `leatherman::util::scope_exit` object alive during `m`: its callback runs
when the scope is left, by a return or by an exception. -/
def scope_exit {α : Type} (callback : List Call) (m : Run α) : Run α :=
  ⟨m.trace ++ callback, m.result⟩

/-! ## The functions of `exe/facter.cc` -/

/-- The stream loops of lines 70-75 and 91-99: a space goes before an item
when something was already written (`tellp() != 0`). -/
def join_words (words : List String) : String :=
  words.foldl (fun out w => (if out ≠ "" then out ++ " " else out) ++ w) ""

/-- The function `log_command_line(argc, argv)`; `current` is the level in force. -/
def log_command_line (env : Env) (current : level) (argv : List String) : Run Unit :=
  if !env.is_enabled current level.info then pure ()
  else emit (Call.log level.info (env.tr "executed with command line: %1%.")
    (some (join_words (argv.drop 1))))

/-- The function `log_queries(queries)`; `current` is the level in force. -/
def log_queries (env : Env) (current : level) (queries : List String) : Run Unit :=
  if !env.is_enabled current level.info then pure ()
  else if queries.isEmpty then
    emit (Call.log level.info (env.tr "resolving all facts.") Option.none)
  else emit (Call.log level.info (env.tr "requested queries: %1%.")
    (some (join_words (queries.filter (fun query => !query.isEmpty)))))

/-- Lines 170-194: the conflict checks, in the order of the source; the error
carries the message of the `po::error` thrown. -/
def check_conflicts (env : Env) (vm : variables_map) : Except String Unit :=
  if vm.count (env.tr "color") ≠ 0 ∧ vm.count (env.tr "no-color") ≠ 0 then
    Except.error (env.tr "color and no-color options conflict: please specify only one.")
  else if vm.count (env.tr "json") ≠ 0 ∧ vm.count (env.tr "yaml") ≠ 0 then
    Except.error (env.tr "json and yaml options conflict: please specify only one.")
  else if vm.count (env.tr "no-external-facts") ≠ 0 ∧ vm.count (env.tr "external-dir") ≠ 0 then
    Except.error (env.tr "no-external-facts and external-dir options conflict: please specify only one.")
  else if vm.count (env.tr "no-custom-facts") ≠ 0 ∧ vm.count (env.tr "custom-dir") ≠ 0 then
    Except.error (env.tr "no-custom-facts and custom-dir options conflict: please specify only one.")
  else if vm.count (env.tr "debug") + vm.count (env.tr "verbose")
      + (if vm.log_level_defaulted then 0 else 1) > 1 then
    Except.error (env.tr "debug, verbose, and log-level options conflict: please specify only one.")
  else if vm.count (env.tr "no-ruby") ≠ 0 ∧ vm.count (env.tr "custom-dir") ≠ 0 then
    Except.error (env.tr "no-ruby and custom-dir options conflict: please specify only one.")
  else if vm.count (env.tr "puppet") ≠ 0 ∧ vm.count (env.tr "no-custom-facts") ≠ 0 then
    Except.error (env.tr "puppet and no-custom-facts options conflict: please specify only one.")
  else if vm.count (env.tr "puppet") ≠ 0 ∧ vm.count (env.tr "no-ruby") ≠ 0 then
    Except.error (env.tr "puppet and no-ruby options conflict: please specify only one.")
  else Except.ok ()

/-- Lines 196-202: the handler of the inner `try`. -/
def report_error (what : String) : Run (Option Nat) := do
  emit (Call.colorize (some level.error))
  emit (Call.cerr ("error: " ++ what ++ "\n\n"))
  emit (Call.colorize Option.none)
  emit Call.help
  pure (some EXIT_FAILURE)

/-- Lines 237-255: the set of queries. -/
def build_queries (env : Env) (vm : variables_map) : List String :=
  if vm.count (env.tr "query") ≠ 0 then vm.query.foldl (add_query env.is_space) []
  else []

/-- Lines 217-223: the logging level. -/
def logging_level (env : Env) (vm : variables_map) : level :=
  if vm.count (env.tr "debug") ≠ 0 then level.debug
  else if vm.count (env.tr "verbose") ≠ 0 then level.info
  else vm.log_level_value

/-- Lines 274-279: the output format. -/
def output_format (env : Env) (vm : variables_map) : format :=
  if vm.count "json" ≠ 0 then format.json
  else if vm.count (env.tr "yaml") ≠ 0 then format.yaml
  else format.hash

/-- Lines 236-283, run while `ruby_cleanup` is alive. The construction of
`collection facts` (line 259) is not recorded. -/
def collect_and_render (env : Env) (current : level) (vm : variables_map) (ruby : Bool) :
    Run Unit := do
  let queries := build_queries env vm
  log_queries env current queries
  call env (Call.add_default_facts ruby)
  (if vm.count (env.tr "no-external-facts") = 0 then
    call env (Call.add_external_facts vm.external_directories)
  else pure ())
  call env Call.add_environment_facts
  (if ruby = true ∧ vm.count (env.tr "no-custom-facts") = 0 then
    call env (Call.load_custom_facts (vm.count (env.tr "puppet") != 0) vm.custom_directories)
  else pure ())
  let show_legacy := vm.count (env.tr "show-legacy") != 0
  call env (Call.write (output_format env vm) queries show_legacy)
  emit Call.cout_endl

/-- Lines 210-215: the colorization, when one of the two options was given. -/
def choose_colorization (env : Env) (vm : variables_map) : Run Unit :=
  if vm.count (env.tr "color") ≠ 0 then emit (Call.set_colorization true)
  else if vm.count (env.tr "no-color") ≠ 0 then emit (Call.set_colorization false)
  else pure ()

/-- Line 229: `(vm.count(_("no-ruby")) == 0) && facter::ruby::initialize(...)`;
the right operand is evaluated only when the left one holds. -/
def start_ruby (env : Env) (vm : variables_map) : Run Bool :=
  if vm.count (env.tr "no-ruby") = 0 then
    initialize_ruby env (vm.count (env.tr "trace") == 1)
  else pure false

/-- Lines 228-283: Ruby is started, and the rest of the block runs in the
scope of `ruby_cleanup`. -/
def ruby_scope (env : Env) (current : level) (vm : variables_map) : Run Unit := do
  let ruby ← start_ruby env vm
  scope_exit (ruby_cleanup ruby) (collect_and_render env current vm ruby)

/-- Lines 204-283: what follows the inner `try`. The result is the status of a
`return` statement, or nothing when the end of the outer `try` is reached. -/
def run_validated (env : Env) (argv : List String) (vm : variables_map) : Run (Option Nat) :=
  if vm.count (env.tr "version") ≠ 0 then do
    emit Call.cout_version
    pure (some EXIT_SUCCESS)
  else do
    choose_colorization env vm
    let lvl := logging_level env vm
    emit (Call.set_level lvl)
    log_command_line env lvl argv
    ruby_scope env lvl vm
    pure Option.none

/-- Lines 162-166: the test for a help option. -/
def help_requested (env : Env) (vm : variables_map) : Bool :=
  vm.count (env.tr "help") != 0 || vm.count "help" != 0

/-- The body of the outer `try` (lines 107-283). -/
def try_block (env : Env) (argv : List String) : startup → Run (Option Nat)
  | startup.setup_failed e => ⟨[Call.setup_logging], Except.error e⟩
  | startup.store_failed what => do
    emit Call.setup_logging
    report_error what
  | startup.stored vm => do
    emit Call.setup_logging
    if help_requested env vm then do
      emit Call.help
      pure (some EXIT_SUCCESS)
    else
      match check_conflicts env vm with
      | Except.error what => report_error what
      | Except.ok () => run_validated env argv vm

/-- Line 291: `error_logged() ? EXIT_FAILURE : EXIT_SUCCESS`. -/
def final_status (env : Env) (trace : List Call) : Nat :=
  if env.error_logged trace then EXIT_FAILURE else EXIT_SUCCESS

/-- What a run of the program shows: its exit status and the calls it made. -/
structure Outcome where
  status : Nat
  trace : List Call
  deriving DecidableEq

/-- The function `main`: the outer `try` with its two handlers and the final
`return`. -/
def main (env : Env) (argv : List String) (s : startup) : Outcome :=
  let r := try_block env argv s
  match r.result with
  | Except.ok (some status) => ⟨status, r.trace⟩
  | Except.ok Option.none => ⟨final_status env r.trace, r.trace⟩
  | Except.error (Exn.locale_error what) =>
    ⟨2, r.trace ++ [Call.cerr
      ("failed to initialize logging system due to a locale error: " ++ what ++ "\n\n")]⟩
  | Except.error (Exn.exception what) =>
    let trace := r.trace ++ [Call.log level.fatal "unhandled exception: %1%" (some what)]
    ⟨final_status env trace, trace⟩

/-- The option named `_(option)` was given: `vm.count(_(option))` is not 0. -/
def variables_map.given (vm : variables_map) (env : Env) (option : String) : Prop :=
  vm.count (env.tr option) ≠ 0

instance (vm : variables_map) (env : Env) (option : String) : Decidable (vm.given env option) :=
  inferInstanceAs (Decidable (vm.count (env.tr option) ≠ 0))

/-- The calls of a run that stops on an error of the options (lines 196-201). -/
def error_report (what : String) : List Call :=
  [Call.setup_logging, Call.colorize (some level.error),
    Call.cerr ("error: " ++ what ++ "\n\n"), Call.colorize Option.none, Call.help]

/-- The call is a `set_level`. -/
def Call.sets_level : Call → Bool
  | Call.set_level _ => true
  | _ => false

/-- The call is a `log`. -/
def Call.is_log : Call → Bool
  | Call.log _ _ _ => true
  | _ => false

/-- The call is `facter::ruby::initialize`. -/
def Call.starts_ruby : Call → Bool
  | Call.initialize_ruby _ => true
  | _ => false

/-- The call is `facter::ruby::load_custom_facts`. -/
def Call.loads_custom_facts : Call → Bool
  | Call.load_custom_facts _ _ => true
  | _ => false

/-- The call assembles or writes the facts: a method of `collection`, or
`load_custom_facts`, which is given the collection. -/
def Call.is_engine_call : Call → Bool
  | Call.add_default_facts _ => true
  | Call.add_external_facts _ => true
  | Call.add_environment_facts => true
  | Call.load_custom_facts _ _ => true
  | Call.write _ _ _ => true
  | _ => false

/-- In the run with the given calls, `facter::ruby::initialize` was called and
returned `true`. -/
def ruby_started (env : Env) (trace : List Call) : Prop :=
  ∃ t, Call.initialize_ruby t ∈ trace ∧ env.raises (Call.initialize_ruby t) = Option.none ∧
    env.ruby_available t = true

/-- The call is none of `initialize`, `uninitialize` and `load_custom_facts`. -/
def Call.outside_ruby : Call → Bool
  | Call.initialize_ruby _ => false
  | Call.uninitialize_ruby => false
  | Call.load_custom_facts _ _ => false
  | _ => true

/-- No call of the list is made to the Ruby subsystem. -/
def quiet (l : List Call) : Prop :=
  ∀ c ∈ l, c.outside_ruby = true

/-! ## Predicates used in the statements -/

/-- A list of characters neither begins nor ends with a character satisfying `p`. -/
def Trimmed (p : Char → Bool) (l : List Char) : Prop :=
  (∀ c, l.head? = some c → p c = false) ∧ (∀ c, l.getLast? = some c → p c = false)

/-- No two neighbours are both the delimiter `'.'`. -/
def NoAdjacentDots (l : List Char) : Prop :=
  List.Chain' (fun a b => ¬(a = '.' ∧ b = '.')) l

/-- What lines 241-251 guarantee of a query that is inserted. -/
def WellFormedQuery (is_space : Char → Bool) (q : String) : Prop :=
  q ≠ "" ∧
  (∀ c, q.data.head? = some c → c ≠ '.' ∧ is_space c = false) ∧
  (∀ c, q.data.getLast? = some c → c ≠ '.' ∧ is_space c = false) ∧
  (∀ l r, q.data ≠ l ++ '.' :: '.' :: r) ∧
  (∀ seg ∈ q.data.splitOn '.', seg ≠ [])

/-- The calls of the handlers of lines 284-289, by what left the outer `try`. -/
def handler_calls {α : Type} : Except Exn α → List Call
  | Except.ok _ => []
  | Except.error (Exn.locale_error what) =>
    [Call.cerr ("failed to initialize logging system due to a locale error: " ++ what ++ "\n\n")]
  | Except.error (Exn.exception what) =>
    [Call.log level.fatal "unhandled exception: %1%" (some what)]

/-- The calls that `collect_and_render` can make when `ruby` is the value of
the variable `ruby`. -/
def collect_event (ruby : Bool) : Call → Prop
  | Call.log _ _ _ => True
  | Call.add_default_facts r => r = ruby
  | Call.add_external_facts _ => True
  | Call.add_environment_facts => True
  | Call.load_custom_facts _ _ => ruby = true
  | Call.write _ _ _ => True
  | Call.cout_endl => True
  | _ => False

/-- The eight conflict rules of lines 171-194. -/
def conflicting (env : Env) (vm : variables_map) : Prop :=
  (vm.given env "color" ∧ vm.given env "no-color") ∨
  (vm.given env "json" ∧ vm.given env "yaml") ∨
  (vm.given env "no-external-facts" ∧ vm.given env "external-dir") ∨
  (vm.given env "no-custom-facts" ∧ vm.given env "custom-dir") ∨
  ((vm.given env "debug" ∧ vm.given env "verbose") ∨
    (vm.given env "debug" ∧ vm.log_level ≠ Option.none) ∨
    (vm.given env "verbose" ∧ vm.log_level ≠ Option.none)) ∨
  (vm.given env "no-ruby" ∧ vm.given env "custom-dir") ∨
  (vm.given env "puppet" ∧ vm.given env "no-custom-facts") ∨
  (vm.given env "puppet" ∧ vm.given env "no-ruby")

/-- The engine calls of `collect_and_render` when no call raises. -/
def dispatch (env : Env) (vm : variables_map) (ruby : Bool) (fmt : format) : List Call :=
  Call.add_default_facts ruby ::
    ((if vm.count (env.tr "no-external-facts") = 0 then
        [Call.add_external_facts vm.external_directories] else []) ++
      (Call.add_environment_facts ::
        ((if ruby = true ∧ vm.count (env.tr "no-custom-facts") = 0 then
            [Call.load_custom_facts (vm.count (env.tr "puppet") != 0)
              vm.custom_directories] else []) ++
          [Call.write fmt (build_queries env vm) (vm.count (env.tr "show-legacy") != 0)])))

/-! ## Sample runs -/

/-- An environment with no translation, the classic locale, no failure, and
Ruby initialising. -/
def plain_env : Env where
  tr := fun s => s
  is_space := classic_is_space
  is_enabled := fun _ _ => false
  ruby_available := fun _ => true
  raises := fun _ => Option.none
  error_logged := fun _ => false

/-- An environment in which the message `json` is translated (to `JSON`), and
which is `plain_env` otherwise. -/
def translating_env : Env where
  tr := fun s => if s = "json" then "JSON" else s
  is_space := classic_is_space
  is_enabled := fun _ _ => false
  ruby_available := fun _ => true
  raises := fun _ => Option.none
  error_logged := fun _ => false

/-- An environment in which `facts.write` raises, and which is `plain_env`
otherwise. -/
def failing_write_env : Env where
  tr := fun s => s
  is_space := classic_is_space
  is_enabled := fun _ _ => false
  ruby_available := fun _ => true
  raises := fun c =>
    match c with
    | Call.write _ _ _ => some (Exn.exception "write failed")
    | _ => Option.none
  error_logged := fun _ => true

/-- The option map of a command line holding the given flags and queries. -/
def vm_of (names : List String) (query : List String) : variables_map :=
  ⟨names, Option.none, query, [], []⟩

/-! ## Properties of the canonicalisation -/

theorem duplicate_delimiter_iff (a b : Char) :
    duplicate_delimiter a b = true ↔ a = '.' ∧ b = '.' := by
  unfold duplicate_delimiter
  constructor
  · intro h
    simp only [Bool.and_eq_true, beq_iff_eq] at h
    exact ⟨h.2, h.1 ▸ h.2⟩
  · rintro ⟨rfl, rfl⟩
    rfl

theorem trim_end_eq_rdropWhile (p : Char → Bool) (s : List Char) :
    trim_end p s = s.rdropWhile p := rfl

theorem trimmed_trim_copy_if (p : Char → Bool) (s : List Char) :
    Trimmed p (trim_copy_if s p) := by
  unfold trim_copy_if trim_begin
  rw [trim_end_eq_rdropWhile]
  constructor
  · intro c hc
    have h := List.head?_dropWhile_not p (s.rdropWhile p)
    rw [hc] at h
    exact h
  · intro c hc
    have hne : List.dropWhile p (s.rdropWhile p) ≠ [] := by
      intro h0
      rw [h0] at hc
      simp at hc
    have hsuf : List.dropWhile p (s.rdropWhile p) <:+ s.rdropWhile p :=
      List.dropWhile_suffix p
    have hne2 : s.rdropWhile p ≠ [] := by
      intro h0
      rw [h0] at hne
      simp at hne
    have hlast := hsuf.getLast hne
    have hnot := List.rdropWhile_last_not p s hne2
    rw [List.getLast?_eq_getLast _ hne] at hc
    have hc2 : (List.dropWhile p (s.rdropWhile p)).getLast hne = c := Option.some.inj hc
    rw [← hc2, hlast]
    simpa using hnot

theorem trim_copy_if_of_trimmed (p : Char → Bool) (l : List Char) (h : Trimmed p l) :
    trim_copy_if l p = l := by
  unfold trim_copy_if trim_begin
  rw [trim_end_eq_rdropWhile]
  have h1 : l.rdropWhile p = l := by
    rw [List.rdropWhile_eq_self_iff]
    intro hl
    have := h.2 (l.getLast hl) (List.getLast?_eq_getLast l hl)
    simp [this]
  rw [h1]
  cases l with
  | nil => rfl
  | cons a t =>
    have := h.1 a rfl
    simp [List.dropWhile, this]

theorem getLast?_unique_loop (kept : Char) (rest : List Char) :
    (kept :: unique_loop duplicate_delimiter kept rest).getLast? = (kept :: rest).getLast? := by
  induction rest generalizing kept with
  | nil => rfl
  | cons c r ih =>
    unfold unique_loop
    by_cases hp : duplicate_delimiter kept c = true
    · obtain ⟨hk, hc⟩ := (duplicate_delimiter_iff kept c).1 hp
      rw [if_pos hp, ih kept]
      subst hk
      subst hc
      simp [List.getLast?_cons_cons]
    · rw [if_neg hp, List.getLast?_cons_cons, ih c, List.getLast?_cons_cons]

theorem head?_unique (l : List Char) : (unique duplicate_delimiter l).head? = l.head? := by
  cases l <;> rfl

theorem getLast?_unique (l : List Char) :
    (unique duplicate_delimiter l).getLast? = l.getLast? := by
  cases l with
  | nil => rfl
  | cons a t => exact getLast?_unique_loop a t

theorem unique_eq_nil_iff (l : List Char) : unique duplicate_delimiter l = [] ↔ l = [] := by
  cases l <;> simp [unique]

theorem chain_unique_loop (kept : Char) (rest : List Char) :
    NoAdjacentDots (kept :: unique_loop duplicate_delimiter kept rest) := by
  unfold NoAdjacentDots
  induction rest generalizing kept with
  | nil => simp [unique_loop]
  | cons c r ih =>
    unfold unique_loop
    by_cases hp : duplicate_delimiter kept c = true
    · rw [if_pos hp]
      exact ih kept
    · rw [if_neg hp, List.chain'_cons]
      exact ⟨fun h => hp ((duplicate_delimiter_iff kept c).2 h), ih c⟩

theorem noAdjacentDots_unique (l : List Char) : NoAdjacentDots (unique duplicate_delimiter l) := by
  cases l with
  | nil => simp [unique, NoAdjacentDots]
  | cons a t => exact chain_unique_loop a t

theorem unique_loop_of_chain (kept : Char) (rest : List Char)
    (h : NoAdjacentDots (kept :: rest)) : unique_loop duplicate_delimiter kept rest = rest := by
  unfold NoAdjacentDots at h
  induction rest generalizing kept with
  | nil => rfl
  | cons c r ih =>
    rw [List.chain'_cons] at h
    unfold unique_loop
    have hp : ¬ duplicate_delimiter kept c = true :=
      fun hp => h.1 ((duplicate_delimiter_iff kept c).1 hp)
    rw [if_neg hp, ih c h.2]

theorem unique_of_noAdjacentDots (l : List Char) (h : NoAdjacentDots l) :
    unique duplicate_delimiter l = l := by
  cases l with
  | nil => rfl
  | cons a t =>
    show a :: unique_loop duplicate_delimiter a t = a :: t
    rw [unique_loop_of_chain a t h]

theorem trimmed_canonicalize (is_space : Char → Bool) (q : String) :
    Trimmed (is_delimiter_or_space is_space) (canonicalize is_space q).data := by
  have h := trimmed_trim_copy_if (is_delimiter_or_space is_space) q.data
  unfold canonicalize
  constructor
  · intro c hc
    apply h.1
    simpa [head?_unique] using hc
  · intro c hc
    apply h.2
    simpa [getLast?_unique] using hc

theorem noAdjacentDots_canonicalize (is_space : Char → Bool) (q : String) :
    NoAdjacentDots (canonicalize is_space q).data :=
  noAdjacentDots_unique _

/-- C1: canonicalising a canonicalised query changes nothing, whatever the
token and whatever the locale classifies as white space. -/
theorem canonicalize_idempotent (is_space : Char → Bool) (x : String) :
    canonicalize is_space (canonicalize is_space x) = canonicalize is_space x := by
  have ht := trimmed_canonicalize is_space x
  have hc := noAdjacentDots_canonicalize is_space x
  show (⟨unique duplicate_delimiter
      (trim_copy_if (canonicalize is_space x).data (is_delimiter_or_space is_space))⟩ : String)
    = canonicalize is_space x
  rw [trim_copy_if_of_trimmed _ _ ht, unique_of_noAdjacentDots _ hc]

theorem splitOnP_head_of_not_dot (y : Char) (ys : List Char) (hy : y ≠ '.') :
    ∃ s0 rest, (y :: ys).splitOnP (fun c => c == '.') = (y :: s0) :: rest ∧
      rest = (ys.splitOnP (fun c => c == '.')).tail := by
  have hne := List.splitOnP_ne_nil (fun c => c == '.') ys
  rw [List.splitOnP_cons]
  have hy2 : (y == '.') = false := by simpa using hy
  simp only [hy2]
  cases hsp : ys.splitOnP (fun c => c == '.') with
  | nil => exact absurd hsp hne
  | cons s0 rest => exact ⟨s0, rest, by simp, rfl⟩

theorem splitOnP_tail_nonempty (l : List Char) (hc : NoAdjacentDots l)
    (hl : ∀ c, l.getLast? = some c → c ≠ '.') :
    ∀ seg ∈ (l.splitOnP (fun c => c == '.')).tail, seg ≠ [] := by
  induction l with
  | nil => simp
  | cons x xs ih =>
    have hc2 : NoAdjacentDots xs := by
      unfold NoAdjacentDots at hc ⊢
      exact hc.tail
    have hl2 : ∀ c, xs.getLast? = some c → c ≠ '.' := by
      intro c hcl
      apply hl
      cases xs with
      | nil => simp at hcl
      | cons y ys => rw [List.getLast?_cons_cons]; exact hcl
    have ih2 := ih hc2 hl2
    by_cases hx : x = '.'
    · subst hx
      rw [List.splitOnP_cons]
      simp only [beq_self_eq_true, if_true, List.tail_cons]
      cases xs with
      | nil => exact absurd rfl (hl '.' rfl)
      | cons y ys =>
        have hy : y ≠ '.' := by
          unfold NoAdjacentDots at hc
          rw [List.chain'_cons] at hc
          exact fun h => hc.1 ⟨rfl, h⟩
        obtain ⟨s0, rest, h1, h2⟩ := splitOnP_head_of_not_dot y ys hy
        rw [h1] at ih2 ⊢
        intro seg hseg
        rcases List.mem_cons.1 hseg with h | h
        · rw [h]; exact List.cons_ne_nil _ _
        · exact ih2 seg (by simpa using h)
    · obtain ⟨s0, rest, h1, h2⟩ := splitOnP_head_of_not_dot x xs hx
      rw [h1, h2]
      exact ih2

theorem splitOn_nonempty (l : List Char) (hne : l ≠ []) (hh : ∀ c, l.head? = some c → c ≠ '.')
    (hl : ∀ c, l.getLast? = some c → c ≠ '.') (hc : NoAdjacentDots l) :
    ∀ seg ∈ l.splitOn '.', seg ≠ [] := by
  cases l with
  | nil => exact absurd rfl hne
  | cons y ys =>
    have hy : y ≠ '.' := hh y rfl
    have ht := splitOnP_tail_nonempty (y :: ys) hc hl
    obtain ⟨s0, rest, h1, -⟩ := splitOnP_head_of_not_dot y ys hy
    show ∀ seg ∈ (y :: ys).splitOnP (fun c => c == '.'), seg ≠ []
    rw [h1] at ht ⊢
    intro seg hseg
    rcases List.mem_cons.1 hseg with h | h
    · rw [h]; exact List.cons_ne_nil _ _
    · exact ht seg (by simpa using h)

theorem mem_set_emplace (q x : String) (s : List String) (h : x ∈ set_emplace q s) :
    x = q ∨ x ∈ s := by
  induction s with
  | nil => left; simpa [set_emplace] using h
  | cons y ys ih =>
    unfold set_emplace at h
    split at h
    · rcases List.mem_cons.1 h with h | h
      · exact Or.inl h
      · exact Or.inr h
    · split at h
      · rcases List.mem_cons.1 h with h | h
        · exact Or.inr (h ▸ List.mem_cons_self _ _)
        · rcases ih h with h | h
          · exact Or.inl h
          · exact Or.inr (List.mem_cons_of_mem _ h)
      · exact Or.inr h

theorem not_delimiter_or_space (is_space : Char → Bool) (c : Char)
    (h : is_delimiter_or_space is_space c = false) : c ≠ '.' ∧ is_space c = false := by
  unfold is_delimiter_or_space at h
  rw [Bool.or_eq_false_iff] at h
  exact ⟨by simpa using h.1, h.2⟩

theorem noAdjacentDots_no_infix (q : List Char) (hc : NoAdjacentDots q) :
    ∀ l r, q ≠ l ++ '.' :: '.' :: r := by
  intro l r h
  unfold NoAdjacentDots at hc
  rw [h] at hc
  have h2 := (List.chain'_append.1 hc).2.1
  rw [List.chain'_cons] at h2
  exact h2.1 ⟨rfl, rfl⟩

theorem wellFormed_canonicalize (is_space : Char → Bool) (q : String)
    (hne : (canonicalize is_space q).isEmpty = false) :
    WellFormedQuery is_space (canonicalize is_space q) := by
  have ht := trimmed_canonicalize is_space q
  have hc := noAdjacentDots_canonicalize is_space q
  have hne2 : canonicalize is_space q ≠ "" := by
    intro h
    have := (String.isEmpty_iff _).2 h
    rw [this] at hne
    exact Bool.noConfusion hne
  have hd : (canonicalize is_space q).data ≠ [] := by
    intro h
    apply hne2
    exact String.ext h
  have hh := fun c hcc => not_delimiter_or_space is_space c (ht.1 c hcc)
  have hl := fun c hcc => not_delimiter_or_space is_space c (ht.2 c hcc)
  exact ⟨hne2, hh, hl, noAdjacentDots_no_infix _ hc,
    splitOn_nonempty _ hd (fun c hcc => (hh c hcc).1) (fun c hcc => (hl c hcc).1) hc⟩

theorem wellFormed_foldl (is_space : Char → Bool) (tokens : List String) (acc : List String)
    (hacc : ∀ q ∈ acc, WellFormedQuery is_space q) :
    ∀ q ∈ tokens.foldl (add_query is_space) acc, WellFormedQuery is_space q := by
  induction tokens generalizing acc with
  | nil => exact hacc
  | cons t ts ih =>
    rw [List.foldl_cons]
    apply ih
    intro q hq
    unfold add_query at hq
    by_cases he : (canonicalize is_space t).isEmpty = true
    · simp only [he, if_true] at hq
      exact hacc q hq
    · have he2 : (canonicalize is_space t).isEmpty = false := by simpa using he
      simp only [he2] at hq
      rcases mem_set_emplace _ _ _ hq with h | h
      · rw [h]
        exact wellFormed_canonicalize is_space t he2
      · exact hacc q h

/-- C2: every string of the query set that `main` builds is non-empty, neither
begins nor ends with `'.'` or a white-space character, has no two adjacent
`'.'`, and splits on `'.'` into non-empty segments only. -/
theorem build_queries_well_formed (env : Env) (vm : variables_map) (q : String)
    (hq : q ∈ build_queries env vm) :
    q ≠ "" ∧
    (∀ c, q.data.head? = some c → c ≠ '.' ∧ env.is_space c = false) ∧
    (∀ c, q.data.getLast? = some c → c ≠ '.' ∧ env.is_space c = false) ∧
    (∀ l r, q.data ≠ l ++ '.' :: '.' :: r) ∧
    (∀ seg ∈ q.data.splitOn '.', seg ≠ []) := by
  unfold build_queries at hq
  split at hq
  · exact wellFormed_foldl env.is_space vm.query [] (by simp) q hq
  · simp at hq

/-- The run of C2 on a command line with three positional tokens. -/
theorem build_queries_well_formed_witness :
    "a.b" ∈ build_queries plain_env (vm_of ["query"] ["..a..b ", "...", "a.b"]) ∧
    ("a.b" ≠ "" ∧
    (∀ c, "a.b".data.head? = some c → c ≠ '.' ∧ plain_env.is_space c = false) ∧
    (∀ c, "a.b".data.getLast? = some c → c ≠ '.' ∧ plain_env.is_space c = false) ∧
    (∀ l r, "a.b".data ≠ l ++ '.' :: '.' :: r) ∧
    (∀ seg ∈ "a.b".data.splitOn '.', seg ≠ [])) :=
  ⟨by decide, build_queries_well_formed plain_env
    (vm_of ["query"] ["..a..b ", "...", "a.b"]) "a.b" (by decide)⟩

theorem mem_set_emplace_self (q : String) (s : List String) : q ∈ set_emplace q s := by
  induction s with
  | nil => simp [set_emplace]
  | cons x xs ih =>
    unfold set_emplace
    split
    · exact List.mem_cons_self _ _
    · rename_i h1
      split
      · exact List.mem_cons_of_mem _ ih
      · rename_i h2
        have hd : q.data = x.data := le_antisymm (not_lt.1 h2) (not_lt.1 h1)
        have hq : q = x := String.ext hd
        rw [hq]
        exact List.mem_cons_self _ _

theorem mem_set_emplace_of_mem (q x : String) (s : List String) (h : x ∈ s) :
    x ∈ set_emplace q s := by
  induction s with
  | nil => simp at h
  | cons y ys ih =>
    unfold set_emplace
    split
    · exact List.mem_cons_of_mem _ h
    · split
      · rcases List.mem_cons.1 h with h | h
        · rw [h]; exact List.mem_cons_self _ _
        · exact List.mem_cons_of_mem _ (ih h)
      · exact h

theorem mem_add_query_of_mem (is_space : Char → Bool) (queries : List String) (t x : String)
    (h : x ∈ queries) : x ∈ add_query is_space queries t := by
  unfold add_query
  by_cases he : (canonicalize is_space t).isEmpty = true
  · simp only [he, if_true]
    exact h
  · simp only [he]
    exact mem_set_emplace_of_mem _ _ _ h

theorem mem_foldl_of_mem (is_space : Char → Bool) (tokens : List String) (acc : List String)
    (x : String) (h : x ∈ acc) : x ∈ tokens.foldl (add_query is_space) acc := by
  induction tokens generalizing acc with
  | nil => exact h
  | cons t ts ih =>
    rw [List.foldl_cons]
    exact ih _ (mem_add_query_of_mem is_space acc t x h)

/-- A token whose query is not empty has its query in the set that the loop of
lines 239-254 builds. -/
theorem mem_foldl_of_token (is_space : Char → Bool) (tokens : List String) (acc : List String)
    (t : String) (ht : t ∈ tokens) (hne : (canonicalize is_space t).isEmpty = false) :
    canonicalize is_space t ∈ tokens.foldl (add_query is_space) acc := by
  induction tokens generalizing acc with
  | nil => simp at ht
  | cons u us ih =>
    rw [List.foldl_cons]
    rcases List.mem_cons.1 ht with h | h
    · apply mem_foldl_of_mem
      rw [← h]
      unfold add_query
      simp only [hne]
      exact mem_set_emplace_self _ _
    · exact ih _ h

/-- C3: the token `"  .foo..bar. "` becomes the query `"foo.bar"`, which is
inserted into the set: the query set of `main` holds `"foo.bar"` whenever the
token is among the positional tokens. The token `"..."` becomes the empty
string, which is not inserted: it leaves the set as it is wherever it stands
among the tokens, and a command line whose only token is `"..."` has an empty
query set. The locale has to classify the blank as white space and the letters
`f` and `r`, where the trimming stops, as not white space. -/
theorem canonicalize_examples (env : Env) (vm vm_dots : variables_map)
    (hblank : env.is_space ' ' = true)
    (hf : env.is_space 'f' = false) (hr : env.is_space 'r' = false)
    (hgiven : vm.count (env.tr "query") ≠ 0)
    (htoken : "  .foo..bar. " ∈ vm.query)
    (hq : vm_dots.query = ["..."]) :
    canonicalize env.is_space "  .foo..bar. " = "foo.bar" ∧
    (∀ queries, "foo.bar" ∈ add_query env.is_space queries "  .foo..bar. ") ∧
    add_query env.is_space [] "  .foo..bar. " = ["foo.bar"] ∧
    "foo.bar" ∈ build_queries env vm ∧
    canonicalize env.is_space "..." = "" ∧
    (∀ queries, add_query env.is_space queries "..." = queries) ∧
    (∀ before after : List String,
      (before ++ "..." :: after).foldl (add_query env.is_space) [] =
        (before ++ after).foldl (add_query env.is_space) []) ∧
    build_queries env vm_dots = [] := by
  have h1 : canonicalize env.is_space "  .foo..bar. " = "foo.bar" := by
    simp [canonicalize, trim_copy_if, trim_begin, trim_end, is_delimiter_or_space,
      List.dropWhile, hblank, hf, hr, unique, unique_loop, duplicate_delimiter]
  have h2 : canonicalize env.is_space "..." = "" := by
    simp [canonicalize, trim_copy_if, trim_begin, trim_end, is_delimiter_or_space,
      List.dropWhile, unique]
  have h3 : ∀ queries, add_query env.is_space queries "..." = queries := by
    intro queries
    unfold add_query
    rw [h2]
    rfl
  refine ⟨h1, ?_, ?_, ?_, h2, h3, ?_, ?_⟩
  · intro queries
    unfold add_query
    rw [h1]
    exact mem_set_emplace_self _ _
  · unfold add_query
    rw [h1]
    rfl
  · unfold build_queries
    rw [if_pos hgiven]
    have hne : (canonicalize env.is_space "  .foo..bar. ").isEmpty = false := by
      rw [h1]
      rfl
    have hm := mem_foldl_of_token env.is_space vm.query [] "  .foo..bar. " htoken hne
    rw [h1] at hm
    exact hm
  · intro before after
    rw [List.foldl_append, List.foldl_cons, h3, List.foldl_append]
  · unfold build_queries
    split
    · rw [hq]
      exact h3 []
    · rfl

/-- The statement of C3 in the classic locale, for the command lines
`facter kernel "  .foo..bar. " ...` and `facter ...`. -/
theorem canonicalize_examples_witness :
    plain_env.is_space ' ' = true ∧
    plain_env.is_space 'f' = false ∧ plain_env.is_space 'r' = false ∧
    (vm_of ["query"] ["kernel", "  .foo..bar. ", "..."]).count (plain_env.tr "query") ≠ 0 ∧
    "  .foo..bar. " ∈ (vm_of ["query"] ["kernel", "  .foo..bar. ", "..."]).query ∧
    (vm_of ["query"] ["..."]).query = ["..."] ∧
    build_queries plain_env (vm_of ["query"] ["kernel", "  .foo..bar. ", "..."]) =
      ["foo.bar", "kernel"] ∧
    (canonicalize plain_env.is_space "  .foo..bar. " = "foo.bar" ∧
    (∀ queries, "foo.bar" ∈ add_query plain_env.is_space queries "  .foo..bar. ") ∧
    add_query plain_env.is_space [] "  .foo..bar. " = ["foo.bar"] ∧
    "foo.bar" ∈ build_queries plain_env (vm_of ["query"] ["kernel", "  .foo..bar. ", "..."]) ∧
    canonicalize plain_env.is_space "..." = "" ∧
    (∀ queries, add_query plain_env.is_space queries "..." = queries) ∧
    (∀ before after : List String,
      (before ++ "..." :: after).foldl (add_query plain_env.is_space) [] =
        (before ++ after).foldl (add_query plain_env.is_space) []) ∧
    build_queries plain_env (vm_of ["query"] ["..."]) = []) :=
  ⟨by decide, by decide, by decide, by decide, by decide, rfl, by decide,
    canonicalize_examples plain_env (vm_of ["query"] ["kernel", "  .foo..bar. ", "..."])
      (vm_of ["query"] ["..."]) (by decide) (by decide) (by decide) (by decide) (by decide) rfl⟩

/-! ## Runs: how traces and results compose -/

theorem trace_pure {α : Type} (a : α) : (pure a : Run α).trace = [] := rfl

theorem result_pure {α : Type} (a : α) : (pure a : Run α).result = Except.ok a := rfl

theorem trace_emit (c : Call) : (emit c).trace = [c] := rfl

theorem result_emit (c : Call) : (emit c).result = Except.ok () := rfl

theorem trace_call (env : Env) (c : Call) : (call env c).trace = [c] := rfl

theorem emit_bind {β : Type} (c : Call) (f : Unit → Run β) :
    (emit c >>= f) = ⟨c :: (f ()).trace, (f ()).result⟩ := rfl

theorem pure_bind_run {α β : Type} (a : α) (f : α → Run β) : (pure a >>= f) = f a := rfl

theorem bind_of_ok {α β : Type} (m : Run α) (f : α → Run β) (a : α)
    (h : m.result = Except.ok a) :
    (m >>= f) = ⟨m.trace ++ (f a).trace, (f a).result⟩ := by
  show Run.bind m f = _
  unfold Run.bind
  rw [h]

theorem bind_of_error {α β : Type} (m : Run α) (f : α → Run β) (e : Exn)
    (h : m.result = Except.error e) :
    (m >>= f) = ⟨m.trace, Except.error e⟩ := by
  show Run.bind m f = _
  unfold Run.bind
  rw [h]

/-- The calls of `m >>= f` are those of `m`, followed by calls of `f`. -/
theorem mem_trace_bind {α β : Type} (m : Run α) (f : α → Run β) (c : Call)
    (h : c ∈ (m >>= f).trace) :
    c ∈ m.trace ∨ ∃ a, m.result = Except.ok a ∧ c ∈ (f a).trace := by
  cases hr : m.result with
  | ok a =>
    rw [bind_of_ok m f a hr] at h
    rcases List.mem_append.1 h with h | h
    · exact Or.inl h
    · exact Or.inr ⟨a, rfl, h⟩
  | error e =>
    rw [bind_of_error m f e hr] at h
    exact Or.inl h

/-! ## The outcome of the runs that end before the logging level is set -/

theorem report_error_eq (what : String) :
    report_error what = ⟨[Call.colorize (some level.error),
      Call.cerr ("error: " ++ what ++ "\n\n"), Call.colorize Option.none, Call.help],
      Except.ok (some EXIT_FAILURE)⟩ := rfl

theorem help_requested_iff (env : Env) (vm : variables_map) :
    help_requested env vm = true ↔ vm.count (env.tr "help") ≠ 0 ∨ vm.count "help" ≠ 0 := by
  simp [help_requested]

theorem main_help (env : Env) (argv : List String) (vm : variables_map)
    (h : help_requested env vm = true) :
    main env argv (startup.stored vm) = ⟨EXIT_SUCCESS, [Call.setup_logging, Call.help]⟩ := by
  simp [main, try_block, h, emit_bind, trace_emit, result_pure, trace_pure]

theorem main_conflict (env : Env) (argv : List String) (vm : variables_map) (what : String)
    (h : help_requested env vm = false) (hc : check_conflicts env vm = Except.error what) :
    main env argv (startup.stored vm) = ⟨EXIT_FAILURE, [Call.setup_logging,
      Call.colorize (some level.error), Call.cerr ("error: " ++ what ++ "\n\n"),
      Call.colorize Option.none, Call.help]⟩ := by
  simp [main, try_block, h, hc, emit_bind, report_error_eq]

theorem main_version (env : Env) (argv : List String) (vm : variables_map)
    (h : help_requested env vm = false) (hc : check_conflicts env vm = Except.ok ())
    (hv : vm.count (env.tr "version") ≠ 0) :
    main env argv (startup.stored vm) =
      ⟨EXIT_SUCCESS, [Call.setup_logging, Call.cout_version]⟩ := by
  simp [main, try_block, h, hc, run_validated, hv, emit_bind, result_pure, trace_pure]

/-! ## The calls made once the options are validated -/

theorem main_trace (env : Env) (argv : List String) (s : startup) :
    (main env argv s).trace =
      (try_block env argv s).trace ++ handler_calls (try_block env argv s).result := by
  unfold main
  simp only []
  cases hr : (try_block env argv s).result with
  | ok a =>
    cases a <;> simp [handler_calls]
  | error e =>
    cases e <;> simp [handler_calls]

theorem all_bind {α β : Type} (P : Call → Prop) (m : Run α) (f : α → Run β)
    (hm : ∀ c ∈ m.trace, P c) (hf : ∀ a, ∀ c ∈ (f a).trace, P c) :
    ∀ c ∈ (m >>= f).trace, P c := by
  intro c hc
  rcases mem_trace_bind m f c hc with h | ⟨a, -, h⟩
  · exact hm c h
  · exact hf a c h

theorem log_command_line_result (env : Env) (current : level) (argv : List String) :
    (log_command_line env current argv).result = Except.ok () := by
  unfold log_command_line
  split <;> rfl

theorem log_command_line_trace (env : Env) (current : level) (argv : List String) :
    ∀ c ∈ (log_command_line env current argv).trace, ∃ f a, c = Call.log level.info f a := by
  unfold log_command_line
  split
  · simp [trace_pure]
  · simp [trace_emit]

theorem log_queries_trace (env : Env) (current : level) (queries : List String) :
    ∀ c ∈ (log_queries env current queries).trace, ∃ f a, c = Call.log level.info f a := by
  unfold log_queries
  split
  · simp [trace_pure]
  · split <;> simp [trace_emit]

theorem log_queries_result (env : Env) (current : level) (queries : List String) :
    (log_queries env current queries).result = Except.ok () := by
  unfold log_queries
  split
  · rfl
  · split <;> rfl

theorem choose_colorization_result (env : Env) (vm : variables_map) :
    (choose_colorization env vm).result = Except.ok () := by
  unfold choose_colorization
  split
  · rfl
  · split <;> rfl

theorem choose_colorization_trace (env : Env) (vm : variables_map) :
    ∀ c ∈ (choose_colorization env vm).trace, ∃ b, c = Call.set_colorization b := by
  unfold choose_colorization
  split
  · simp [trace_emit]
  · split <;> simp [trace_emit, trace_pure]

theorem collect_events (env : Env) (current : level) (vm : variables_map) (ruby : Bool) :
    ∀ c ∈ (collect_and_render env current vm ruby).trace, collect_event ruby c := by
  unfold collect_and_render
  simp only []
  refine all_bind _ _ _ ?_ (fun _ => ?_)
  · intro c hc
    obtain ⟨f, a, rfl⟩ := log_queries_trace _ _ _ c hc
    trivial
  refine all_bind _ _ _ ?_ (fun _ => ?_)
  · intro c hc
    rw [trace_call, List.mem_singleton] at hc
    subst hc
    rfl
  refine all_bind _ _ _ ?_ (fun _ => ?_)
  · intro c hc
    split at hc
    · rw [trace_call, List.mem_singleton] at hc
      subst hc
      trivial
    · simp [trace_pure] at hc
  refine all_bind _ _ _ ?_ (fun _ => ?_)
  · intro c hc
    rw [trace_call, List.mem_singleton] at hc
    subst hc
    trivial
  refine all_bind _ _ _ ?_ (fun _ => ?_)
  · intro c hc
    split at hc
    · rename_i hr
      rw [trace_call, List.mem_singleton] at hc
      subst hc
      exact hr.1
    · simp [trace_pure] at hc
  refine all_bind _ _ _ ?_ (fun _ => ?_)
  · intro c hc
    rw [trace_call, List.mem_singleton] at hc
    subst hc
    trivial
  · intro c hc
    rw [trace_emit, List.mem_singleton] at hc
    subst hc
    trivial

theorem ruby_scope_disabled (env : Env) (current : level) (vm : variables_map)
    (h : vm.count (env.tr "no-ruby") ≠ 0) :
    ruby_scope env current vm = collect_and_render env current vm false := by
  unfold ruby_scope start_ruby
  rw [if_neg h, pure_bind_run]
  simp [scope_exit, ruby_cleanup]

theorem ruby_scope_raised (env : Env) (current : level) (vm : variables_map) (e : Exn)
    (h : vm.count (env.tr "no-ruby") = 0)
    (hr : env.raises (Call.initialize_ruby (vm.count (env.tr "trace") == 1)) = some e) :
    ruby_scope env current vm =
      ⟨[Call.initialize_ruby (vm.count (env.tr "trace") == 1)], Except.error e⟩ := by
  unfold ruby_scope start_ruby
  rw [if_pos h]
  rw [bind_of_error _ _ e]
  · rfl
  · unfold initialize_ruby
    simp only [hr]

theorem ruby_scope_returned (env : Env) (current : level) (vm : variables_map)
    (h : vm.count (env.tr "no-ruby") = 0)
    (hr : env.raises (Call.initialize_ruby (vm.count (env.tr "trace") == 1)) = Option.none) :
    ruby_scope env current vm =
      ⟨Call.initialize_ruby (vm.count (env.tr "trace") == 1) ::
        ((collect_and_render env current vm
            (env.ruby_available (vm.count (env.tr "trace") == 1))).trace ++
          ruby_cleanup (env.ruby_available (vm.count (env.tr "trace") == 1))),
       (collect_and_render env current vm
            (env.ruby_available (vm.count (env.tr "trace") == 1))).result⟩ := by
  unfold ruby_scope start_ruby
  rw [if_pos h]
  rw [bind_of_ok _ _ (env.ruby_available (vm.count (env.tr "trace") == 1))]
  · rfl
  · unfold initialize_ruby
    simp only [hr]

/-- The run of validated options that do not ask for the version: the calls up
to `set_level`, the echo of the command line, and the scope of Ruby. -/
theorem try_block_validated (env : Env) (argv : List String) (vm : variables_map)
    (h : help_requested env vm = false) (hc : check_conflicts env vm = Except.ok ())
    (hv : vm.count (env.tr "version") = 0) :
    try_block env argv (startup.stored vm) =
      ⟨Call.setup_logging :: ((choose_colorization env vm).trace ++
        Call.set_level (logging_level env vm) ::
          ((log_command_line env (logging_level env vm) argv).trace ++
            (ruby_scope env (logging_level env vm) vm).trace)),
       match (ruby_scope env (logging_level env vm) vm).result with
       | Except.ok _ => Except.ok Option.none
       | Except.error e => Except.error e⟩ := by
  have h1 : try_block env argv (startup.stored vm) =
      (emit Call.setup_logging >>= fun _ => run_validated env argv vm) := by
    simp [try_block, h, hc]
  rw [h1, emit_bind]
  unfold run_validated
  simp only [hv, ne_eq, not_true_eq_false, if_false]
  rw [bind_of_ok _ _ () (choose_colorization_result env vm)]
  simp only [emit_bind]
  rw [bind_of_ok _ _ () (log_command_line_result env _ argv)]
  simp only []
  cases hr : (ruby_scope env (logging_level env vm) vm).result with
  | ok a =>
    rw [bind_of_ok _ _ a hr]
    simp [trace_pure, result_pure]
  | error e =>
    rw [bind_of_error _ _ e hr]

/-! ## Validation of the options -/

theorem count_le_one (vm : variables_map) (name : String) :
    vm.count name = 0 ∨ vm.count name = 1 := by
  unfold variables_map.count
  split
  · exact Or.inr rfl
  · exact Or.inl rfl

theorem several_levels_iff (vm : variables_map) (a b : String) :
    vm.count a + vm.count b + (if vm.log_level_defaulted then 0 else 1) > 1 ↔
      (vm.count a ≠ 0 ∧ vm.count b ≠ 0) ∨ (vm.count a ≠ 0 ∧ vm.log_level ≠ Option.none) ∨
        (vm.count b ≠ 0 ∧ vm.log_level ≠ Option.none) := by
  unfold variables_map.log_level_defaulted
  rcases count_le_one vm a with ha | ha <;> rcases count_le_one vm b with hb | hb <;>
    cases hl : vm.log_level <;> simp [ha, hb]

theorem checks_ok_iff (c1 c2 c3 c4 c5 c6 c7 c8 : Prop) [Decidable c1] [Decidable c2]
    [Decidable c3] [Decidable c4] [Decidable c5] [Decidable c6] [Decidable c7] [Decidable c8]
    (e1 e2 e3 e4 e5 e6 e7 e8 : String) :
    (if c1 then Except.error e1 else if c2 then Except.error e2
      else if c3 then Except.error e3 else if c4 then Except.error e4
      else if c5 then Except.error e5 else if c6 then Except.error e6
      else if c7 then Except.error e7 else if c8 then Except.error e8
      else (Except.ok () : Except String Unit)) = Except.ok () ↔
    ¬(c1 ∨ c2 ∨ c3 ∨ c4 ∨ c5 ∨ c6 ∨ c7 ∨ c8) := by
  split_ifs <;> simp [*]

theorem check_conflicts_ok_iff (env : Env) (vm : variables_map) :
    check_conflicts env vm = Except.ok () ↔ ¬ conflicting env vm := by
  unfold check_conflicts conflicting variables_map.given
  rw [checks_ok_iff, several_levels_iff]

theorem check_conflicts_error_iff (env : Env) (vm : variables_map) :
    (∃ what, check_conflicts env vm = Except.error what) ↔ conflicting env vm := by
  constructor
  · rintro ⟨what, h⟩
    by_contra hn
    rw [(check_conflicts_ok_iff env vm).2 hn] at h
    exact Except.noConfusion h
  · intro h
    cases hc : check_conflicts env vm with
    | error what => exact ⟨what, rfl⟩
    | ok u =>
      exact absurd h ((check_conflicts_ok_iff env vm).1 hc)

theorem help_requested_false (env : Env) (vm : variables_map)
    (h : vm.count (env.tr "help") = 0 ∧ vm.count "help" = 0) :
    help_requested env vm = false := by
  simp [help_requested, h.1, h.2]

theorem choose_colorization_cases (env : Env) (vm : variables_map) :
    (choose_colorization env vm).trace = [] ∨
      ∃ b, (choose_colorization env vm).trace = [Call.set_colorization b] := by
  unfold choose_colorization
  split
  · exact Or.inr ⟨true, rfl⟩
  · split
    · exact Or.inr ⟨false, rfl⟩
    · exact Or.inl rfl

/-- A run whose options pass the checks does not look like an error report. -/
theorem main_validated_ne_report (env : Env) (argv : List String) (vm : variables_map)
    (h : help_requested env vm = false) (hc : check_conflicts env vm = Except.ok ())
    (what : String) :
    (main env argv (startup.stored vm)).trace ≠ error_report what := by
  by_cases hv : vm.count (env.tr "version") = 0
  · rw [main_trace, try_block_validated env argv vm h hc hv]
    simp only [error_report]
    rcases choose_colorization_cases env vm with h0 | ⟨b, h0⟩ <;> rw [h0] <;> simp
  · rw [main_version env argv vm h hc hv]
    simp [error_report]

/-- C4: when `po::store` succeeded and help is not requested, the run stops
with the error message, the help text and the status `EXIT_FAILURE`, having
called nothing else but the logging setup, exactly when one of the eight
conflict rules holds. -/
theorem validation_fails_iff_conflict (env : Env) (argv : List String) (vm : variables_map)
    (hhelp : vm.count (env.tr "help") = 0 ∧ vm.count "help" = 0) :
    (∃ what, main env argv (startup.stored vm) = ⟨EXIT_FAILURE, error_report what⟩) ↔
      ((vm.given env "color" ∧ vm.given env "no-color") ∨
       (vm.given env "json" ∧ vm.given env "yaml") ∨
       (vm.given env "no-external-facts" ∧ vm.given env "external-dir") ∨
       (vm.given env "no-custom-facts" ∧ vm.given env "custom-dir") ∨
       ((vm.given env "debug" ∧ vm.given env "verbose") ∨
         (vm.given env "debug" ∧ vm.log_level ≠ Option.none) ∨
         (vm.given env "verbose" ∧ vm.log_level ≠ Option.none)) ∨
       (vm.given env "no-ruby" ∧ vm.given env "custom-dir") ∨
       (vm.given env "puppet" ∧ vm.given env "no-custom-facts") ∨
       (vm.given env "puppet" ∧ vm.given env "no-ruby")) := by
  have hh := help_requested_false env vm hhelp
  show _ ↔ conflicting env vm
  constructor
  · rintro ⟨what, hm⟩
    by_contra hn
    have hok := (check_conflicts_ok_iff env vm).2 hn
    apply main_validated_ne_report env argv vm hh hok what
    rw [hm]
  · intro hcf
    obtain ⟨what, hw⟩ := (check_conflicts_error_iff env vm).2 hcf
    exact ⟨what, main_conflict env argv vm what hh hw⟩

/-- C4 on the command line `facter --puppet --no-ruby`. -/
theorem validation_fails_iff_conflict_witness :
    ((vm_of ["puppet", "no-ruby"] []).count (plain_env.tr "help") = 0 ∧
      (vm_of ["puppet", "no-ruby"] []).count "help" = 0) ∧
    ((∃ what, main plain_env ["facter", "--puppet", "--no-ruby"]
        (startup.stored (vm_of ["puppet", "no-ruby"] [])) = ⟨EXIT_FAILURE, error_report what⟩) ↔
      (((vm_of ["puppet", "no-ruby"] []).given plain_env "color" ∧
          (vm_of ["puppet", "no-ruby"] []).given plain_env "no-color") ∨
       ((vm_of ["puppet", "no-ruby"] []).given plain_env "json" ∧
          (vm_of ["puppet", "no-ruby"] []).given plain_env "yaml") ∨
       ((vm_of ["puppet", "no-ruby"] []).given plain_env "no-external-facts" ∧
          (vm_of ["puppet", "no-ruby"] []).given plain_env "external-dir") ∨
       ((vm_of ["puppet", "no-ruby"] []).given plain_env "no-custom-facts" ∧
          (vm_of ["puppet", "no-ruby"] []).given plain_env "custom-dir") ∨
       (((vm_of ["puppet", "no-ruby"] []).given plain_env "debug" ∧
          (vm_of ["puppet", "no-ruby"] []).given plain_env "verbose") ∨
         ((vm_of ["puppet", "no-ruby"] []).given plain_env "debug" ∧
          (vm_of ["puppet", "no-ruby"] []).log_level ≠ Option.none) ∨
         ((vm_of ["puppet", "no-ruby"] []).given plain_env "verbose" ∧
          (vm_of ["puppet", "no-ruby"] []).log_level ≠ Option.none)) ∨
       ((vm_of ["puppet", "no-ruby"] []).given plain_env "no-ruby" ∧
          (vm_of ["puppet", "no-ruby"] []).given plain_env "custom-dir") ∨
       ((vm_of ["puppet", "no-ruby"] []).given plain_env "puppet" ∧
          (vm_of ["puppet", "no-ruby"] []).given plain_env "no-custom-facts") ∨
       ((vm_of ["puppet", "no-ruby"] []).given plain_env "puppet" ∧
          (vm_of ["puppet", "no-ruby"] []).given plain_env "no-ruby"))) :=
  ⟨by decide, validation_fails_iff_conflict plain_env ["facter", "--puppet", "--no-ruby"]
    (vm_of ["puppet", "no-ruby"] []) (by decide)⟩

/-- C5 as stated fails: with `json`, `yaml` and `help` on the command line the
run prints the help text and ends with `EXIT_SUCCESS`; no error is reported. -/
theorem json_yaml_with_help_succeeds :
    (vm_of ["json", "yaml", "help"] []).given plain_env "json" ∧
    (vm_of ["json", "yaml", "help"] []).given plain_env "yaml" ∧
    main plain_env ["facter", "--json", "--yaml", "--help"]
      (startup.stored (vm_of ["json", "yaml", "help"] [])) =
        ⟨EXIT_SUCCESS, [Call.setup_logging, Call.help]⟩ := by
  decide

/-- C5, amended: when `po::store` succeeded with both `json` and `yaml` and
help is not requested, the run reports an error, prints the help text and ends
with `EXIT_FAILURE`, whatever the other options are. -/
theorem json_yaml_conflict (env : Env) (argv : List String) (vm : variables_map)
    (hhelp : vm.count (env.tr "help") = 0 ∧ vm.count "help" = 0)
    (hjson : vm.given env "json") (hyaml : vm.given env "yaml") :
    ∃ what, main env argv (startup.stored vm) = ⟨EXIT_FAILURE, error_report what⟩ := by
  have hh := help_requested_false env vm hhelp
  have hcf : conflicting env vm := Or.inr (Or.inl ⟨hjson, hyaml⟩)
  obtain ⟨what, hw⟩ := (check_conflicts_error_iff env vm).2 hcf
  exact ⟨what, main_conflict env argv vm what hh hw⟩

/-- C5, amended, on the command line `facter --json --yaml --debug`. -/
theorem json_yaml_conflict_witness :
    ((vm_of ["json", "yaml", "debug"] []).count (plain_env.tr "help") = 0 ∧
      (vm_of ["json", "yaml", "debug"] []).count "help" = 0) ∧
    (vm_of ["json", "yaml", "debug"] []).given plain_env "json" ∧
    (vm_of ["json", "yaml", "debug"] []).given plain_env "yaml" ∧
    ∃ what, main plain_env ["facter", "--json", "--yaml", "--debug"]
      (startup.stored (vm_of ["json", "yaml", "debug"] [])) = ⟨EXIT_FAILURE, error_report what⟩ :=
  ⟨by decide, by decide, by decide,
    json_yaml_conflict plain_env ["facter", "--json", "--yaml", "--debug"]
      (vm_of ["json", "yaml", "debug"] []) (by decide) (by decide) (by decide)⟩

/-- C6 as stated fails: on `facter --help --bogus` the parser rejects the
unknown option, `po::store` raises before the help test of line 163, and the
run reports the error and ends with `EXIT_FAILURE`, not with status 0. -/
theorem help_with_parse_error_fails :
    "--help" ∈ ["facter", "--help", "--bogus"] ∧
    main plain_env ["facter", "--help", "--bogus"]
      (startup.store_failed "unrecognised option '--bogus'") =
        ⟨EXIT_FAILURE, error_report "unrecognised option '--bogus'"⟩ ∧
    (main plain_env ["facter", "--help", "--bogus"]
      (startup.store_failed "unrecognised option '--bogus'")).status ≠ 0 := by
  decide

/-- C6, amended: when `po::store` succeeded and the stored options hold the
help option, under its translated name or under the name `help`, the run ends
with status 0 after the logging setup and the help text: conflicting options
are not reported, Ruby is not initialised and the collection engine is not
called. -/
theorem help_short_circuits (env : Env) (argv : List String) (vm : variables_map)
    (hhelp : vm.count (env.tr "help") ≠ 0 ∨ vm.count "help" ≠ 0) :
    main env argv (startup.stored vm) = ⟨0, [Call.setup_logging, Call.help]⟩ :=
  main_help env argv vm ((help_requested_iff env vm).2 hhelp)

/-- C6, amended, on the command line `facter --help --puppet --no-ruby`. -/
theorem help_short_circuits_witness :
    ((vm_of ["help", "puppet", "no-ruby"] []).count (plain_env.tr "help") ≠ 0 ∨
      (vm_of ["help", "puppet", "no-ruby"] []).count "help" ≠ 0) ∧
    main plain_env ["facter", "--help", "--puppet", "--no-ruby"]
      (startup.stored (vm_of ["help", "puppet", "no-ruby"] [])) =
        ⟨0, [Call.setup_logging, Call.help]⟩ :=
  ⟨by decide, help_short_circuits plain_env ["facter", "--help", "--puppet", "--no-ruby"]
    (vm_of ["help", "puppet", "no-ruby"] []) (by decide)⟩

/-- C7 as stated fails: `facter --version --json --yaml` parses, does not ask
for help and asks for the version, but the conflict of `json` and `yaml` is
reported first: the version is not printed and the status is `EXIT_FAILURE`. -/
theorem version_with_conflict_fails :
    help_requested plain_env (vm_of ["version", "json", "yaml"] []) = false ∧
    (vm_of ["version", "json", "yaml"] []).given plain_env "version" ∧
    main plain_env ["facter", "--version", "--json", "--yaml"]
      (startup.stored (vm_of ["version", "json", "yaml"] [])) =
        ⟨EXIT_FAILURE,
          error_report "json and yaml options conflict: please specify only one."⟩ := by
  decide

/-- C7, amended: when `po::store` succeeded, help is not requested, no conflict
check fails and the version is requested, the run prints the version and ends
with status 0; the logging level is not set, Ruby is not initialised and the
collection engine is not called. -/
theorem version_short_circuits (env : Env) (argv : List String) (vm : variables_map)
    (hhelp : vm.count (env.tr "help") = 0 ∧ vm.count "help" = 0)
    (hvalid : check_conflicts env vm = Except.ok ())
    (hversion : vm.given env "version") :
    main env argv (startup.stored vm) = ⟨0, [Call.setup_logging, Call.cout_version]⟩ :=
  main_version env argv vm (help_requested_false env vm hhelp) hvalid hversion

/-- C7, amended, on the command line `facter --version --json`. -/
theorem version_short_circuits_witness :
    ((vm_of ["version", "json"] []).count (plain_env.tr "help") = 0 ∧
      (vm_of ["version", "json"] []).count "help" = 0) ∧
    check_conflicts plain_env (vm_of ["version", "json"] []) = Except.ok () ∧
    (vm_of ["version", "json"] []).given plain_env "version" ∧
    main plain_env ["facter", "--version", "--json"]
      (startup.stored (vm_of ["version", "json"] [])) =
        ⟨0, [Call.setup_logging, Call.cout_version]⟩ :=
  ⟨by decide, rfl, by decide,
    version_short_circuits plain_env ["facter", "--version", "--json"]
      (vm_of ["version", "json"] []) (by decide) rfl (by decide)⟩

/-! ## The logging level -/

theorem ruby_scope_events (env : Env) (current : level) (vm : variables_map) :
    ∀ c ∈ (ruby_scope env current vm).trace,
      (∃ t, c = Call.initialize_ruby t) ∨ c = Call.uninitialize_ruby ∨
        ∃ r, collect_event r c := by
  intro c hc
  by_cases h : vm.count (env.tr "no-ruby") = 0
  · cases hr : env.raises (Call.initialize_ruby (vm.count (env.tr "trace") == 1)) with
    | none =>
      rw [ruby_scope_returned env current vm h hr] at hc
      simp only [List.mem_cons, List.mem_append] at hc
      rcases hc with hc | hc | hc
      · exact Or.inl ⟨_, hc⟩
      · exact Or.inr (Or.inr ⟨_, collect_events _ _ _ _ c hc⟩)
      · unfold ruby_cleanup at hc
        split at hc
        · exact Or.inr (Or.inl (List.mem_singleton.1 hc))
        · simp at hc
    | some e =>
      rw [ruby_scope_raised env current vm e h hr] at hc
      exact Or.inl ⟨_, List.mem_singleton.1 hc⟩
  · rw [ruby_scope_disabled env current vm h] at hc
    exact Or.inr (Or.inr ⟨_, collect_events _ _ _ _ c hc⟩)

theorem handler_events {α : Type} (r : Except Exn α) :
    ∀ c ∈ handler_calls r, (∃ text, c = Call.cerr text) ∨ ∃ l f a, c = Call.log l f a := by
  intro c hc
  cases r with
  | ok a => simp [handler_calls] at hc
  | error e =>
    cases e with
    | locale_error what =>
      exact Or.inl ⟨_, List.mem_singleton.1 hc⟩
    | exception what =>
      exact Or.inr ⟨_, _, _, List.mem_singleton.1 hc⟩

theorem main_validated_trace (env : Env) (argv : List String) (vm : variables_map)
    (h : help_requested env vm = false) (hc : check_conflicts env vm = Except.ok ())
    (hv : vm.count (env.tr "version") = 0) :
    (main env argv (startup.stored vm)).trace =
      (Call.setup_logging :: (choose_colorization env vm).trace) ++
        Call.set_level (logging_level env vm) ::
          ((log_command_line env (logging_level env vm) argv).trace ++
            ((ruby_scope env (logging_level env vm) vm).trace ++
              handler_calls (ruby_scope env (logging_level env vm) vm).result)) := by
  rw [main_trace, try_block_validated env argv vm h hc hv]
  simp only [List.cons_append, List.append_assoc, List.cons.injEq, true_and,
    List.append_cancel_left_eq]
  cases hr : (ruby_scope env (logging_level env vm) vm).result with
  | ok a => rfl
  | error e => cases e <;> rfl

/-- C8 as stated fails: the options of `facter --version` pass the checks, and
the run ends without any call of `set_level`. -/
theorem version_sets_no_level :
    help_requested plain_env (vm_of ["version"] []) = false ∧
    check_conflicts plain_env (vm_of ["version"] []) = Except.ok () ∧
    (main plain_env ["facter", "--version"]
      (startup.stored (vm_of ["version"] []))).trace.filter Call.sets_level = [] :=
  ⟨by decide, rfl, by decide⟩

/-- C8, amended: when the options pass the checks (help is not requested and no
conflict check fails) and the version is not requested, `set_level` is called
exactly once, no `log` comes before it, and its level is `debug` with the
debug flag, `info` with the verbose flag, the level given with `log-level`
when one was given, and `warning` when none of the three was given. -/
theorem set_level_once (env : Env) (argv : List String) (vm : variables_map)
    (hhelp : vm.count (env.tr "help") = 0 ∧ vm.count "help" = 0)
    (hvalid : check_conflicts env vm = Except.ok ())
    (hversion : vm.count (env.tr "version") = 0) :
    ∃ lvl pre post,
      (main env argv (startup.stored vm)).trace = pre ++ Call.set_level lvl :: post ∧
      (∀ c ∈ pre, c.sets_level = false ∧ c.is_log = false) ∧
      (∀ c ∈ post, c.sets_level = false) ∧
      (vm.given env "debug" → lvl = level.debug) ∧
      (vm.given env "verbose" → lvl = level.info) ∧
      (∀ l, vm.log_level = some l → lvl = l) ∧
      (¬ vm.given env "debug" → ¬ vm.given env "verbose" → vm.log_level = Option.none →
        lvl = level.warning) := by
  have hh := help_requested_false env vm hhelp
  have hnc := (check_conflicts_ok_iff env vm).1 hvalid
  unfold conflicting at hnc
  simp only [not_or] at hnc
  obtain ⟨-, -, -, -, ⟨hdv, hdl, hvl⟩, -⟩ := hnc
  refine ⟨logging_level env vm, _, _, main_validated_trace env argv vm hh hvalid hversion,
    ?_, ?_, ?_, ?_, ?_, ?_⟩
  · intro c hc
    rcases List.mem_cons.1 hc with hc | hc
    · subst hc
      exact ⟨rfl, rfl⟩
    · obtain ⟨b, rfl⟩ := choose_colorization_trace env vm c hc
      exact ⟨rfl, rfl⟩
  · intro c hc
    rcases List.mem_append.1 hc with hc | hc
    · obtain ⟨f, a, rfl⟩ := log_command_line_trace env _ argv c hc
      rfl
    · rcases List.mem_append.1 hc with hc | hc
      · rcases ruby_scope_events env _ vm c hc with ⟨t, rfl⟩ | rfl | ⟨r, hr⟩
        · rfl
        · rfl
        · cases c <;> first | rfl | exact absurd hr id
      · rcases handler_events _ c hc with ⟨t, rfl⟩ | ⟨l, f, a, rfl⟩ <;> rfl
  · intro hd
    unfold logging_level
    rw [if_pos (show vm.count (env.tr "debug") ≠ 0 from hd)]
  · intro hv
    have hd : ¬ vm.count (env.tr "debug") ≠ 0 := fun hd => hdv ⟨hd, hv⟩
    unfold logging_level
    rw [if_neg hd, if_pos (show vm.count (env.tr "verbose") ≠ 0 from hv)]
  · intro l hl
    have hne : vm.log_level ≠ Option.none := by rw [hl]; exact Option.some_ne_none l
    have hd : ¬ vm.count (env.tr "debug") ≠ 0 := fun hd => hdl ⟨hd, hne⟩
    have hv : ¬ vm.count (env.tr "verbose") ≠ 0 := fun hv => hvl ⟨hv, hne⟩
    unfold logging_level variables_map.log_level_value
    rw [if_neg hd, if_neg hv, hl]
  · intro hd hv hl
    unfold logging_level variables_map.log_level_value
    rw [if_neg (show ¬ vm.count (env.tr "debug") ≠ 0 from hd),
      if_neg (show ¬ vm.count (env.tr "verbose") ≠ 0 from hv), hl]

/-- C8, amended, on the command line `facter --verbose kernel`. -/
theorem set_level_once_witness :
    ((vm_of ["verbose", "query"] ["kernel"]).count (plain_env.tr "help") = 0 ∧
      (vm_of ["verbose", "query"] ["kernel"]).count "help" = 0) ∧
    check_conflicts plain_env (vm_of ["verbose", "query"] ["kernel"]) = Except.ok () ∧
    (vm_of ["verbose", "query"] ["kernel"]).count (plain_env.tr "version") = 0 ∧
    ∃ lvl pre post,
      (main plain_env ["facter", "--verbose", "kernel"]
        (startup.stored (vm_of ["verbose", "query"] ["kernel"]))).trace =
          pre ++ Call.set_level lvl :: post ∧
      (∀ c ∈ pre, c.sets_level = false ∧ c.is_log = false) ∧
      (∀ c ∈ post, c.sets_level = false) ∧
      ((vm_of ["verbose", "query"] ["kernel"]).given plain_env "debug" → lvl = level.debug) ∧
      ((vm_of ["verbose", "query"] ["kernel"]).given plain_env "verbose" → lvl = level.info) ∧
      (∀ l, (vm_of ["verbose", "query"] ["kernel"]).log_level = some l → lvl = l) ∧
      (¬ (vm_of ["verbose", "query"] ["kernel"]).given plain_env "debug" →
        ¬ (vm_of ["verbose", "query"] ["kernel"]).given plain_env "verbose" →
        (vm_of ["verbose", "query"] ["kernel"]).log_level = Option.none →
        lvl = level.warning) :=
  ⟨by decide, rfl, by decide,
    set_level_once plain_env ["facter", "--verbose", "kernel"]
      (vm_of ["verbose", "query"] ["kernel"]) (by decide) rfl (by decide)⟩

/-! ## The life cycle of the Ruby subsystem -/

theorem quiet_append (a b : List Call) (ha : quiet a) (hb : quiet b) : quiet (a ++ b) := by
  intro c hc
  rcases List.mem_append.1 hc with h | h
  · exact ha c h
  · exact hb c h

theorem quiet_cons (c : Call) (l : List Call) (hc : c.outside_ruby = true) (hl : quiet l) :
    quiet (c :: l) := by
  intro d hd
  rcases List.mem_cons.1 hd with h | h
  · rw [h]; exact hc
  · exact hl d h

theorem quiet_nil : quiet [] := by
  intro c hc
  simp at hc

theorem quiet_filter_starts (l : List Call) (h : quiet l) : l.filter Call.starts_ruby = [] := by
  rw [List.filter_eq_nil_iff]
  intro c hc
  have := h c hc
  cases c <;> simp_all [Call.outside_ruby, Call.starts_ruby]

theorem quiet_filter_loads (l : List Call) (h : quiet l) :
    l.filter Call.loads_custom_facts = [] := by
  rw [List.filter_eq_nil_iff]
  intro c hc
  have := h c hc
  cases c <;> simp_all [Call.outside_ruby, Call.loads_custom_facts]

theorem quiet_count (l : List Call) (h : quiet l) : l.count Call.uninitialize_ruby = 0 := by
  rw [List.count_eq_zero]
  intro hc
  have := h _ hc
  simp [Call.outside_ruby] at this

theorem quiet_not_mem (l : List Call) (h : quiet l) (t : Bool) :
    Call.initialize_ruby t ∉ l := by
  intro hc
  have := h _ hc
  simp [Call.outside_ruby] at this

theorem quiet_handler_calls {α : Type} (r : Except Exn α) : quiet (handler_calls r) := by
  intro c hc
  rcases handler_events r c hc with ⟨t, rfl⟩ | ⟨l, f, a, rfl⟩ <;> rfl

theorem quiet_log_command_line (env : Env) (current : level) (argv : List String) :
    quiet (log_command_line env current argv).trace := by
  intro c hc
  obtain ⟨f, a, rfl⟩ := log_command_line_trace env current argv c hc
  rfl

theorem quiet_choose_colorization (env : Env) (vm : variables_map) :
    quiet (choose_colorization env vm).trace := by
  intro c hc
  obtain ⟨b, rfl⟩ := choose_colorization_trace env vm c hc
  rfl

theorem quiet_collect_without_ruby (env : Env) (current : level) (vm : variables_map) :
    quiet (collect_and_render env current vm false).trace := by
  intro c hc
  have h := collect_events env current vm false c hc
  cases c <;> first | rfl | exact absurd h id | exact Bool.noConfusion h

theorem collect_with_ruby (env : Env) (current : level) (vm : variables_map) (ruby : Bool) :
    ∀ c ∈ (collect_and_render env current vm ruby).trace,
      c.starts_ruby = false ∧ c ≠ Call.uninitialize_ruby := by
  intro c hc
  have h := collect_events env current vm ruby c hc
  cases c <;> first | exact absurd h id | exact ⟨rfl, fun h2 => Call.noConfusion h2⟩

/-- The calls of a run, by what became of the Ruby subsystem: it was not
started; or it was started and did not return `true`; or it returned `true`,
and `uninitialize` follows the calls made in the scope of `ruby_cleanup`. -/
theorem main_ruby_shape (env : Env) (argv : List String) (s : startup) :
    quiet (main env argv s).trace ∨
    ((∀ vm, s = startup.stored vm → vm.count (env.tr "no-ruby") = 0) ∧
      ((∃ q1 q2 t, quiet q1 ∧ quiet q2 ∧
          ¬(env.raises (Call.initialize_ruby t) = Option.none ∧ env.ruby_available t = true) ∧
          (main env argv s).trace = q1 ++ Call.initialize_ruby t :: q2) ∨
       (∃ q1 b q2 t, quiet q1 ∧ quiet q2 ∧
          (∀ c ∈ b, c.starts_ruby = false ∧ c ≠ Call.uninitialize_ruby) ∧
          env.raises (Call.initialize_ruby t) = Option.none ∧ env.ruby_available t = true ∧
          (main env argv s).trace =
            q1 ++ Call.initialize_ruby t :: (b ++ Call.uninitialize_ruby :: q2)))) := by
  cases s with
  | setup_failed e =>
    left
    rw [main_trace]
    exact quiet_append _ _ (quiet_cons _ _ rfl quiet_nil) (quiet_handler_calls _)
  | store_failed what =>
    left
    rw [main_trace]
    refine quiet_append _ _ ?_ (quiet_handler_calls _)
    intro c hc
    simp only [try_block, emit_bind, report_error_eq, List.mem_cons, List.mem_singleton,
      List.not_mem_nil, or_false] at hc
    rcases hc with rfl | rfl | rfl | rfl | rfl <;> rfl
  | stored vm =>
    by_cases hh : help_requested env vm = true
    · left
      rw [main_help env argv vm hh]
      intro c hc
      simp only [List.mem_cons, List.mem_singleton, List.not_mem_nil, or_false] at hc
      rcases hc with rfl | rfl <;> rfl
    have hh : help_requested env vm = false := by simpa using hh
    cases hc : check_conflicts env vm with
    | error what =>
      left
      rw [main_conflict env argv vm what hh hc]
      intro c hc
      simp only [List.mem_cons, List.mem_singleton, List.not_mem_nil, or_false] at hc
      rcases hc with rfl | rfl | rfl | rfl | rfl <;> rfl
    | ok u =>
      by_cases hv : vm.count (env.tr "version") = 0
      · have hpre : quiet ((Call.setup_logging :: (choose_colorization env vm).trace) ++
            Call.set_level (logging_level env vm) ::
              (log_command_line env (logging_level env vm) argv).trace) :=
          quiet_append _ _ (quiet_cons _ _ rfl (quiet_choose_colorization env vm))
            (quiet_cons _ _ rfl (quiet_log_command_line env _ argv))
        have ht := main_validated_trace env argv vm hh hc hv
        by_cases hr : vm.count (env.tr "no-ruby") = 0
        · right
          refine ⟨fun vm2 h2 => by cases h2; exact hr, ?_⟩
          cases he : env.raises (Call.initialize_ruby (vm.count (env.tr "trace") == 1)) with
          | none =>
            rw [ruby_scope_returned env _ vm hr he] at ht
            cases ha : env.ruby_available (vm.count (env.tr "trace") == 1) with
            | false =>
              left
              rw [ha] at ht
              refine ⟨_, (collect_and_render env (logging_level env vm) vm false).trace ++
                handler_calls (collect_and_render env (logging_level env vm) vm false).result,
                vm.count (env.tr "trace") == 1, hpre,
                quiet_append _ _ (quiet_collect_without_ruby env _ vm) (quiet_handler_calls _),
                ?_, ?_⟩
              · rw [ha]
                simp
              · rw [ht]
                simp [ruby_cleanup]
            | true =>
              right
              rw [ha] at ht
              refine ⟨_, (collect_and_render env (logging_level env vm) vm true).trace,
                handler_calls (collect_and_render env (logging_level env vm) vm true).result,
                vm.count (env.tr "trace") == 1, hpre, quiet_handler_calls _,
                collect_with_ruby env (logging_level env vm) vm true, he, ha, ?_⟩
              rw [ht]
              simp [ruby_cleanup]
          | some e =>
            left
            rw [ruby_scope_raised env _ vm e hr he] at ht
            refine ⟨_, handler_calls (Except.error e : Except Exn Unit),
              vm.count (env.tr "trace") == 1, hpre, quiet_handler_calls _, ?_, ?_⟩
            · rw [he]
              simp
            · rw [ht]
              simp
        · left
          rw [ht, ruby_scope_disabled env _ vm hr]
          refine quiet_append _ _ (quiet_cons _ _ rfl (quiet_choose_colorization env vm))
            (quiet_cons _ _ rfl (quiet_append _ _ (quiet_log_command_line env _ argv)
              (quiet_append _ _ (quiet_collect_without_ruby env _ vm) (quiet_handler_calls _))))
      · left
        rw [main_version env argv vm hh hc hv]
        intro c hc
        simp only [List.mem_cons, List.mem_singleton, List.not_mem_nil, or_false] at hc
        rcases hc with rfl | rfl <;> rfl

/-- C9: in every run `initialize` is called at most once, and not at all when
`no-ruby` is given; `uninitialize` is called exactly once when `initialize`
was called and returned `true`, whether or not a later call raises, and is
not called otherwise; `load_custom_facts` is not called when `no-ruby` is
given, nor when `initialize` did not return `true`. -/
theorem ruby_life_cycle (env : Env) (argv : List String) (s : startup) :
    ((main env argv s).trace.filter Call.starts_ruby).length ≤ 1 ∧
    (∀ vm, s = startup.stored vm → vm.given env "no-ruby" →
      (main env argv s).trace.filter Call.starts_ruby = []) ∧
    (ruby_started env (main env argv s).trace →
      (main env argv s).trace.count Call.uninitialize_ruby = 1) ∧
    (¬ ruby_started env (main env argv s).trace →
      (main env argv s).trace.count Call.uninitialize_ruby = 0) ∧
    (∀ vm, s = startup.stored vm → vm.given env "no-ruby" →
      (main env argv s).trace.filter Call.loads_custom_facts = []) ∧
    (¬ ruby_started env (main env argv s).trace →
      (main env argv s).trace.filter Call.loads_custom_facts = []) := by
  rcases main_ruby_shape env argv s with hq | ⟨hnr, hshape⟩
  · have hns : ¬ ruby_started env (main env argv s).trace := by
      rintro ⟨t, ht, -⟩
      exact quiet_not_mem _ hq t ht
    refine ⟨?_, fun _ _ _ => quiet_filter_starts _ hq, fun h => absurd h hns,
      fun _ => quiet_count _ hq, fun _ _ _ => quiet_filter_loads _ hq,
      fun _ => quiet_filter_loads _ hq⟩
    rw [quiet_filter_starts _ hq]
    exact Nat.zero_le 1
  · have hno : ∀ vm, s = startup.stored vm → vm.given env "no-ruby" → False :=
      fun vm hs hg => hg (hnr vm hs)
    rcases hshape with ⟨q1, q2, t, h1, h2, hnot, htr⟩ | ⟨q1, b, q2, t, h1, h2, hb, he, ha, htr⟩
    · have hns : ¬ ruby_started env (main env argv s).trace := by
        rintro ⟨t2, ht2, he2, ha2⟩
        rw [htr] at ht2
        rcases List.mem_append.1 ht2 with h | h
        · exact quiet_not_mem _ h1 t2 h
        · rcases List.mem_cons.1 h with h | h
          · cases h
            exact hnot ⟨he2, ha2⟩
          · exact quiet_not_mem _ h2 t2 h
      refine ⟨?_, fun vm hs hg => (hno vm hs hg).elim, fun h => absurd h hns, fun _ => ?_,
        fun vm hs hg => (hno vm hs hg).elim, fun _ => ?_⟩
      · rw [htr]
        simp [List.filter_append, List.filter_cons, quiet_filter_starts _ h1,
          quiet_filter_starts _ h2, Call.starts_ruby]
      · rw [htr]
        simp [List.count_append, List.count_cons, quiet_count _ h1, quiet_count _ h2]
      · rw [htr]
        simp [List.filter_append, List.filter_cons, quiet_filter_loads _ h1,
          quiet_filter_loads _ h2, Call.loads_custom_facts]
    · have hs : ruby_started env (main env argv s).trace := by
        refine ⟨t, ?_, he, ha⟩
        rw [htr]
        simp
      have hbf : b.filter Call.starts_ruby = [] := by
        rw [List.filter_eq_nil_iff]
        intro c hc
        simp [(hb c hc).1]
      have hbc : b.count Call.uninitialize_ruby = 0 := by
        rw [List.count_eq_zero]
        intro hc
        exact (hb _ hc).2 rfl
      refine ⟨?_, fun vm hs hg => (hno vm hs hg).elim, fun _ => ?_, fun h => absurd hs h,
        fun vm hs hg => (hno vm hs hg).elim, fun h => absurd hs h⟩
      · rw [htr]
        simp [List.filter_append, List.filter_cons, quiet_filter_starts _ h1,
          quiet_filter_starts _ h2, hbf, Call.starts_ruby]
      · rw [htr]
        simp [List.count_append, List.count_cons, quiet_count _ h1, quiet_count _ h2, hbc]

/-- C9 on a run in which Ruby starts and `facts.write` raises: `uninitialize`
is called once, before the handler logs the failure. -/
theorem ruby_life_cycle_witness :
    (main failing_write_env ["facter"] (startup.stored (vm_of [] []))).trace =
      [Call.setup_logging, Call.set_level level.warning, Call.initialize_ruby false,
        Call.add_default_facts true, Call.add_external_facts [], Call.add_environment_facts,
        Call.load_custom_facts false [], Call.write format.hash [] false,
        Call.uninitialize_ruby,
        Call.log level.fatal "unhandled exception: %1%" (some "write failed")] ∧
    ruby_started failing_write_env
      (main failing_write_env ["facter"] (startup.stored (vm_of [] []))).trace ∧
    (main failing_write_env ["facter"]
      (startup.stored (vm_of [] []))).trace.count Call.uninitialize_ruby = 1 :=
  ⟨by decide, ⟨false, by decide, rfl, rfl⟩,
    (ruby_life_cycle failing_write_env ["facter"] (startup.stored (vm_of [] []))).2.2.1
      ⟨false, by decide, rfl, rfl⟩⟩

/-! ## The order of the dispatch -/

theorem call_of_no_raise (env : Env) (c : Call) (h : env.raises c = Option.none) :
    call env c = emit c := by
  unfold call emit
  rw [h]

theorem collect_no_raise (env : Env) (current : level) (vm : variables_map) (ruby : Bool)
    (hr : ∀ c, env.raises c = Option.none) :
    collect_and_render env current vm ruby =
      ⟨(log_queries env current (build_queries env vm)).trace ++
        (Call.add_default_facts ruby ::
          ((if vm.count (env.tr "no-external-facts") = 0 then
              [Call.add_external_facts vm.external_directories] else []) ++
            (Call.add_environment_facts ::
              ((if ruby = true ∧ vm.count (env.tr "no-custom-facts") = 0 then
                  [Call.load_custom_facts (vm.count (env.tr "puppet") != 0)
                    vm.custom_directories] else []) ++
                [Call.write (output_format env vm) (build_queries env vm)
                  (vm.count (env.tr "show-legacy") != 0), Call.cout_endl])))),
       Except.ok ()⟩ := by
  unfold collect_and_render
  simp only [call_of_no_raise env _ (hr _)]
  rw [bind_of_ok _ _ () (log_queries_result env current _)]
  simp only [emit_bind]
  by_cases h1 : vm.count (env.tr "no-external-facts") = 0 <;>
    by_cases h2 : ruby = true ∧ vm.count (env.tr "no-custom-facts") = 0 <;>
    simp only [h1, h2, and_self, if_true, if_false, emit_bind, pure_bind_run, result_emit,
      trace_emit, List.nil_append, List.cons_append, List.singleton_append]

theorem filter_engine_log_queries (env : Env) (current : level) (queries : List String) :
    (log_queries env current queries).trace.filter Call.is_engine_call = [] := by
  rw [List.filter_eq_nil_iff]
  intro c hc
  obtain ⟨f, a, rfl⟩ := log_queries_trace env current queries c hc
  simp [Call.is_engine_call]

theorem filter_engine_log_command_line (env : Env) (current : level) (argv : List String) :
    (log_command_line env current argv).trace.filter Call.is_engine_call = [] := by
  rw [List.filter_eq_nil_iff]
  intro c hc
  obtain ⟨f, a, rfl⟩ := log_command_line_trace env current argv c hc
  simp [Call.is_engine_call]

theorem filter_engine_choose_colorization (env : Env) (vm : variables_map) :
    (choose_colorization env vm).trace.filter Call.is_engine_call = [] := by
  rw [List.filter_eq_nil_iff]
  intro c hc
  obtain ⟨b, rfl⟩ := choose_colorization_trace env vm c hc
  simp [Call.is_engine_call]

theorem filter_engine_collect (env : Env) (current : level) (vm : variables_map) (ruby : Bool)
    (hr : ∀ c, env.raises c = Option.none) :
    (collect_and_render env current vm ruby).trace.filter Call.is_engine_call =
      dispatch env vm ruby (output_format env vm) := by
  rw [collect_no_raise env current vm ruby hr]
  unfold dispatch
  simp only [List.filter_append, filter_engine_log_queries, List.nil_append]
  by_cases h1 : vm.count (env.tr "no-external-facts") = 0 <;>
    by_cases h2 : ruby = true ∧ vm.count (env.tr "no-custom-facts") = 0 <;>
    simp [h1, h2, List.filter_cons, Call.is_engine_call]

/-- The engine calls of a complete run, in order: validated options, no
version request, no call raises. The format is the one line 275 computes,
from `vm.count("json")`. -/
theorem dispatch_order (env : Env) (argv : List String) (vm : variables_map)
    (hhelp : vm.count (env.tr "help") = 0 ∧ vm.count "help" = 0)
    (hvalid : check_conflicts env vm = Except.ok ())
    (hversion : vm.count (env.tr "version") = 0)
    (hr : ∀ c, env.raises c = Option.none) :
    (main env argv (startup.stored vm)).trace.filter Call.is_engine_call =
      dispatch env vm
        (decide (vm.count (env.tr "no-ruby") = 0) &&
          env.ruby_available (vm.count (env.tr "trace") == 1))
        (if vm.count "json" ≠ 0 then format.json
          else if vm.count (env.tr "yaml") ≠ 0 then format.yaml else format.hash) := by
  have hh := help_requested_false env vm hhelp
  have hres : ∀ ruby, (collect_and_render env (logging_level env vm) vm ruby).result =
      Except.ok () := by
    intro ruby
    rw [collect_no_raise env _ vm ruby hr]
  have hcl : ∀ ruby, (ruby_cleanup ruby).filter Call.is_engine_call = [] := by
    intro ruby
    unfold ruby_cleanup
    split <;> simp [Call.is_engine_call]
  rw [main_validated_trace env argv vm hh hvalid hversion]
  by_cases hn : vm.count (env.tr "no-ruby") = 0
  · rw [ruby_scope_returned env _ vm hn (hr _)]
    dsimp only
    rw [hres]
    simp only [List.filter_append, List.filter_cons, filter_engine_choose_colorization,
      filter_engine_log_command_line, filter_engine_collect env _ vm _ hr, hcl,
      Call.is_engine_call, handler_calls, hn, decide_True, Bool.true_and, List.nil_append,
      List.append_nil, Bool.false_eq_true, if_false, List.filter_nil]
    rfl
  · rw [ruby_scope_disabled env _ vm hn, hres]
    simp only [List.filter_append, List.filter_cons, filter_engine_choose_colorization,
      filter_engine_log_command_line, filter_engine_collect env _ vm _ hr,
      Call.is_engine_call, handler_calls, hn, decide_False, Bool.false_and, List.nil_append,
      List.append_nil, Bool.false_eq_true, if_false, List.filter_nil]
    rfl

/-- C10 at the failing input: the message `json` is translated to `JSON` and the
command line is `facter --JSON`. The option `json` is given, the checks pass,
and the engine calls come in the order of C10, but `write` is given the
format `hash`: line 275 looks up the untranslated name `json`. -/
theorem translated_json_writes_hash :
    (vm_of ["JSON"] []).given translating_env "json" ∧
    help_requested translating_env (vm_of ["JSON"] []) = false ∧
    check_conflicts translating_env (vm_of ["JSON"] []) = Except.ok () ∧
    (main translating_env ["facter", "--JSON"]
        (startup.stored (vm_of ["JSON"] []))).trace.filter Call.is_engine_call =
      [Call.add_default_facts true, Call.add_external_facts [], Call.add_environment_facts,
        Call.load_custom_facts false [], Call.write format.hash [] false] :=
  ⟨by decide, by decide, rfl, by decide⟩

end Facter
